import Mathlib

/-!
# Verification of the alumint_bot event-ingestion / ledger core

A shallow embedding of the referral back end in src/bot.py: the SQLite
tables become Lean records, the handlers become pure state-transition
functions, and the claimed properties are settled as theorems.

Modelling conventions:

* The employees table is keyed by its PRIMARY KEY username, so it is
  embedded as a function from usernames to optional rows; the profile
  text fields the claimed operations never read (full name, phone, ...)
  are omitted. Counters are Int (to make non-negativity a real
  statement) and monetary values are Rat; the concrete values in the
  claims are exactly representable, so Rat arithmetic agrees with the
  Python float arithmetic on them.
* clicks and withdraw_requests are append-only lists; new rows are
  prepended. The AUTOINCREMENT id of a withdrawal request is modelled
  by the table length at insertion time.
* SQL comparisons against NULL parameters never match (sqlEqInt,
  sqlEqStr below), and Python string interpolation of None renders
  "None" (pyStrOpt), with the truthiness fallback of
  viewer_telegram_id or viewer_username rendered by pyOrIdStr.
* The handler track_click_handler in the source wraps everything after
  the first fingerprint probe inside the branch taken when the probe
  finds a matching visit row; when the probe misses, the function falls
  off the end of its try block and returns None. That control flow is
  embedded exactly (TrackResult.noResponse), since several claims turn
  on it. A second insert with an already-present unique_daily_key
  violates the UNIQUE constraint and is reported as
  TrackResult.integrityError (the except branch answers HTTP 500).
-/

namespace AlumintBot

/-- One row of the employees table (PRIMARY KEY username is the lookup
key of the state's employees map and therefore not a field). -/
structure Employee where
  telegramId : Option Int
  isEditor : Bool
  profileSet : Bool
  banned : Bool
  bkashNumber : Option String
  binanceId : Option String
  totalVisits : Int
  totalClicks : Int
  usdtBalance : Rat
deriving DecidableEq

/-- One row of the clicks table. timestampDate is the calendar-date part
of the CURRENT_TIMESTAMP default, which is all the handlers compare. -/
structure ClickRow where
  refByEmployee : Option String
  viewerTelegramId : Option Int
  viewerUsername : Option String
  viewerFullName : Option String
  userAgent : String
  pageUrl : String
  timestampDate : String
  isVisit : Bool
  isClick : Bool
  isTelegramBrowser : Bool
  uniqueDailyKey : String
deriving DecidableEq

/-- One row of the withdraw_requests table. -/
structure WithdrawRow where
  id : Nat
  employeeUsername : String
  usdtAmount : Rat
  paymentMethod : String
  paymentDetail : String
  comment : String
  status : String
deriving DecidableEq

/-- The persistent store: the four tables of the ledger core. usdtRate is
the value of global_settings under key usdt_rate_per_1000_visits. -/
structure St where
  employees : String → Option Employee
  clicks : List ClickRow
  withdrawRequests : List WithdrawRow
  usdtRate : Option Rat

/-- The store right after startup: empty tables, and the
INSERT OR IGNORE of the default rate 1.00. -/
def initSt : St :=
  { employees := fun _ => none
    clicks := []
    withdrawRequests := []
    usdtRate := some 1 }

/-- UPDATE employees ... WHERE username = u: rewrite the row at u, if
present, and leave every other row alone. -/
def updateEmp (st : St) (u : String) (f : Employee → Employee) : St :=
  { st with employees := fun v => if v = u then (st.employees v).map f else st.employees v }

/-- The same UPDATE with a parameter that may be NULL: username = NULL
matches no row. -/
def updateEmpOpt (st : St) (u : Option String) (f : Employee → Employee) : St :=
  match u with
  | some u => updateEmp st u f
  | none => st

/-- SQL equality between a column and a parameter on integers: a NULL on
either side never matches. -/
def sqlEqInt : Option Int → Option Int → Bool
  | some a, some b => a = b
  | _, _ => false

/-- SQL equality between a column and a parameter on strings: a NULL on
either side never matches. -/
def sqlEqStr : Option String → Option String → Bool
  | some a, some b => a = b
  | _, _ => false

/-- Python string interpolation of an optional string: None renders as
the four letters None. -/
def pyStrOpt : Option String → String
  | some s => s
  | none => "None"

/-- The expression viewer_telegram_id or viewer_username under an
f-string: a present, non-zero id renders as its decimal form, otherwise
the username (or None) is rendered. -/
def pyOrIdStr (tid : Option Int) (uname : Option String) : String :=
  match tid with
  | some t => if t = 0 then pyStrOpt uname else toString t
  | none => pyStrOpt uname

/-- The JSON body accepted by the /track-click endpoint. -/
structure RawEvent where
  ref : Option String
  viewerUsername : Option String
  viewerTelegramId : Option Int
  viewerFullName : Option String
  userAgent : String
  pageUrl : String
  isVisit : Bool
  isTelegramBrowser : Bool
deriving DecidableEq

/-- unique_daily_key_for_viewer_page: viewer identity, date and page,
joined by underscores. -/
def viewerPageKey (e : RawEvent) (today : String) : String :=
  pyOrIdStr e.viewerTelegramId e.viewerUsername ++ "_" ++ today ++ "_" ++ e.pageUrl

/-- unique_employee_page_visit_key: referrer, viewer identity, date and
page, joined by underscores; this is the key stored on inserted rows. -/
def employeePageKey (e : RawEvent) (today : String) : String :=
  pyStrOpt e.ref ++ "_" ++ pyOrIdStr e.viewerTelegramId e.viewerUsername
    ++ "_" ++ today ++ "_" ++ e.pageUrl

/-- SELECT id FROM clicks WHERE unique_daily_key = key AND is_visit = 1,
as a membership test. -/
def visitKeyExists (st : St) (key : String) : Bool :=
  st.clicks.any fun r => r.uniqueDailyKey == key && r.isVisit

/-- Whether any row already carries the key: the UNIQUE constraint on
unique_daily_key fires on insert exactly when this holds. -/
def keyExists (st : St) (key : String) : Bool :=
  st.clicks.any fun r => r.uniqueDailyKey == key

/-- SELECT COUNT(*) FROM clicks WHERE (viewer_telegram_id = ? OR
viewer_username = ?) AND STRFTIME of the timestamp equals today. -/
def clicksTodayForViewer (st : St) (today : String) (e : RawEvent) : Nat :=
  (st.clicks.filter fun r =>
    (sqlEqInt r.viewerTelegramId e.viewerTelegramId
      || sqlEqStr r.viewerUsername e.viewerUsername)
    && r.timestampDate == today).length

/-- The row INSERTed into clicks for an accepted event: is_click is
always true and the stored fingerprint is the employee-page key. -/
def mkClickRow (e : RawEvent) (today : String) : ClickRow :=
  { refByEmployee := e.ref
    viewerTelegramId := e.viewerTelegramId
    viewerUsername := e.viewerUsername
    viewerFullName := e.viewerFullName
    userAgent := e.userAgent
    pageUrl := e.pageUrl
    timestampDate := today
    isVisit := e.isVisit
    isClick := true
    isTelegramBrowser := e.isTelegramBrowser
    uniqueDailyKey := employeePageKey e today }

/-- Prepend a clicks row (INSERT INTO clicks). -/
def insertClick (st : St) (row : ClickRow) : St :=
  { st with clicks := row :: st.clicks }

/-- The write sequence of the accepting path of track_click_handler:
insert the row, credit total_visits when the event is a visit whose
employee-page fingerprint was not already counted as a visit (the probe
runs against the pre-insert store), and credit total_clicks always. A
NULL referrer matches no employee row. -/
def recordClick (st : St) (today : String) (e : RawEvent) : St :=
  updateEmpOpt
    (if e.isVisit && !(visitKeyExists st (employeePageKey e today)) then
      updateEmpOpt (insertClick st (mkClickRow e today)) e.ref
        (fun emp => { emp with totalVisits := emp.totalVisits + 1 })
    else insertClick st (mkClickRow e today))
    e.ref (fun emp => { emp with totalClicks := emp.totalClicks + 1 })

/-- The possible outcomes of a /track-click call. noResponse is the
fall-through of the handler (its try block ends without a return, so the
framework sees None); integrityError is the UNIQUE-constraint violation
surfaced by the except branch as an HTTP 500 error payload. -/
inductive TrackResult
  | success
  | limitReached
  | integrityError
  | noResponse
deriving DecidableEq

/-- track_click_handler: the first fingerprint probe guards the whole
body. Only when a stored visit row already matches the viewer-page key
does the handler check the 20-per-day viewer quota and then record the
event; otherwise it performs no writes and produces no response. -/
def track_click_handler (st : St) (today : String) (e : RawEvent) : St × TrackResult :=
  if visitKeyExists st (viewerPageKey e today) then
    if 20 ≤ clicksTodayForViewer st today e then (st, TrackResult.limitReached)
    else if keyExists st (employeePageKey e today) then (st, TrackResult.integrityError)
    else (recordClick st today e, TrackResult.success)
  else (st, TrackResult.noResponse)

/-- SELECT value FROM global_settings, parsed with float and defaulted
to 0.0 when the row is absent. -/
def getRate (st : St) : Rat :=
  st.usdtRate.getD 0

/-- The outcomes of the claim_usdt command. -/
inductive ClaimResult
  | notRegistered
  | noVisits
  | rateNotSet
  | ok (converted newBalance : Rat)
deriving DecidableEq

/-- The UPDATE of the conversion: usdt_balance is set to the fetched
balance plus visits divided by 1000 times the rate, total_visits to 0. -/
def applyClaim (st : St) (u : String) (emp : Employee) (rate : Rat) : St :=
  updateEmp st u fun e =>
    { e with usdtBalance := emp.usdtBalance + (emp.totalVisits : Rat) / 1000 * rate
             totalVisits := 0 }

/-- claim_usdt_handler (the admin convert_visits_to_usdt_handler runs the
identical checks and UPDATE on the target employee). -/
def claim_usdt_handler (st : St) (u : String) : St × ClaimResult :=
  match st.employees u with
  | none => (st, ClaimResult.notRegistered)
  | some emp =>
    if emp.totalVisits = 0 then (st, ClaimResult.noVisits)
    else if getRate st = 0 then (st, ClaimResult.rateNotSet)
    else
      (applyClaim st u emp (getRate st),
        ClaimResult.ok ((emp.totalVisits : Rat) / 1000 * getRate st)
          (emp.usdtBalance + (emp.totalVisits : Rat) / 1000 * getRate st))

/-- set_usdt: reject a rate at or below zero, otherwise overwrite the
settings row. The Bool reports whether the rate was stored. -/
def set_usdt_rate_handler (st : St) (amount : Rat) : St × Bool :=
  if amount ≤ 0 then (st, false)
  else ({ st with usdtRate := some amount }, true)

/-- em_visit_add: a non-positive count is rejected, otherwise
total_visits is increased. -/
def employee_visit_add_handler (st : St) (u : String) (n : Int) : St :=
  if n ≤ 0 then st
  else updateEmp st u fun e => { e with totalVisits := e.totalVisits + n }

/-- em_visit_minus: a non-positive count is rejected, otherwise
total_visits is set to MAX(0, total_visits - n). -/
def employee_visit_minus_handler (st : St) (u : String) (n : Int) : St :=
  if n ≤ 0 then st
  else updateEmp st u fun e => { e with totalVisits := max 0 (e.totalVisits - n) }

/-- The outcomes of the withdraw_usdt dialogue, in the order the three
FSM handlers check them. -/
inductive WithdrawResult
  | notRegistered
  | profileNotSet
  | balanceBelowMinimum
  | noAmountAvailable
  | amountNotPositive
  | insufficientBalance
  | invalidMethod
  | missingPaymentDetail
  | commentTooLong
  | ok (requestId : Nat)
deriving DecidableEq

/-- The pending row inserted for an accepted withdrawal; the id models
the AUTOINCREMENT key. -/
def newWithdrawRow (st : St) (u : String) (amount : Rat)
    (method detail comment : String) : WithdrawRow :=
  { id := st.withdrawRequests.length
    employeeUsername := u
    usdtAmount := amount
    paymentMethod := method
    paymentDetail := detail
    comment := comment
    status := "pending" }

/-- The write sequence of process_withdraw_comment: insert the pending
request (payment detail copied by value from the profile) and then debit
usdt_balance by the amount. -/
def applyWithdrawal (st : St) (u : String) (amount : Rat)
    (method detail comment : String) : St :=
  updateEmp
    { st with withdrawRequests := newWithdrawRow st u amount method detail comment :: st.withdrawRequests }
    u (fun e => { e with usdtBalance := e.usdtBalance - amount })

/-- The tail of the dialogue once the payment detail is known: the
placeholder comment না is normalized to empty, longer than 60 characters
is rejected, then the request is committed. -/
def finishWithdrawal (st : St) (u : String) (amount : Rat)
    (method detail comment : String) : St × WithdrawResult :=
  let c := if comment = "না" then "" else comment
  if 60 < c.length then (st, WithdrawResult.commentTooLong)
  else (applyWithdrawal st u amount method detail c,
    WithdrawResult.ok st.withdrawRequests.length)

/-- The withdraw_usdt dialogue as one transition, with the checks in
source order: registration and profile and a balance of at least 1.00 at
dialogue start, a non-empty quick-amount keyboard, then a positive
amount within the balance, a known payment method whose profile detail
is non-empty (Python truthiness: absent or empty both fail), then the
comment step. -/
def requestWithdrawal (st : St) (u : String) (amount : Rat)
    (method comment : String) : St × WithdrawResult :=
  match st.employees u with
  | none => (st, WithdrawResult.notRegistered)
  | some emp =>
    if emp.profileSet = false then (st, WithdrawResult.profileNotSet)
    else if emp.usdtBalance < 1 then (st, WithdrawResult.balanceBelowMinimum)
    else if ([(1 : Rat), 5, 10, 30, 100].filter fun a => a ≤ emp.usdtBalance) = [] then
      (st, WithdrawResult.noAmountAvailable)
    else if amount ≤ 0 then (st, WithdrawResult.amountNotPositive)
    else if emp.usdtBalance < amount then (st, WithdrawResult.insufficientBalance)
    else if method = "Bkash" then
      match emp.bkashNumber with
      | none => (st, WithdrawResult.missingPaymentDetail)
      | some d =>
        if d = "" then (st, WithdrawResult.missingPaymentDetail)
        else finishWithdrawal st u amount method d comment
    else if method = "Binance" then
      match emp.binanceId with
      | none => (st, WithdrawResult.missingPaymentDetail)
      | some d =>
        if d = "" then (st, WithdrawResult.missingPaymentDetail)
        else finishWithdrawal st u amount method d comment
    else (st, WithdrawResult.invalidMethod)

/-- The final UPDATE of the profile dialogue, restricted to the fields
the withdrawal flow reads: it marks the profile set and overwrites both
payment identifiers (the omitted text fields touch nothing the claims
mention). -/
def set_profile_payment (st : St) (u : String) (bkash bin : Option String) : St :=
  updateEmp st u fun e =>
    { e with profileSet := true, bkashNumber := bkash, binanceId := bin }

/-- An admin resolution outcome. -/
inductive Outcome
  | approved
  | rejected
deriving DecidableEq

/-- The status string written for an outcome. -/
def Outcome.toStatus : Outcome → String
  | Outcome.approved => "approved"
  | Outcome.rejected => "rejected"

/-- The outcomes of ResolveRequest. -/
inductive ResolveResult
  | ok
  | alreadyResolved
  | notFound
deriving DecidableEq

/-- UPDATE withdraw_requests SET status = s WHERE id = i. -/
def setStatus (l : List WithdrawRow) (i : Nat) (s : String) : List WithdrawRow :=
  l.map fun w => if w.id == i then { w with status := s } else w

/-- Modelled from the spec: the admin status-write ResolveRequest of
section 4.3 is absent from src/bot.py (the file stores withdraw_requests
rows with a status column and the spec keeps the pending-to-terminal
transition in this core, but no handler performs it). Per the spec it
looks the request up by id, rejects an already-resolved request with
AlreadyResolved, and otherwise writes the outcome as the status. -/
def resolveRequest (st : St) (i : Nat) (o : Outcome) : St × ResolveResult :=
  match st.withdrawRequests.find? (fun w => w.id == i) with
  | none => (st, ResolveResult.notFound)
  | some r =>
    if r.status = "pending" then
      ({ st with withdrawRequests := setStatus st.withdrawRequests i o.toStatus },
        ResolveResult.ok)
    else (st, ResolveResult.alreadyResolved)

/-- The operations of the ledger core, for sequencing. -/
inductive Op
  | track (today : String) (e : RawEvent)
  | claim (u : String)
  | setRate (amount : Rat)
  | visitAdd (u : String) (n : Int)
  | visitMinus (u : String) (n : Int)
  | withdraw (u : String) (amount : Rat) (method comment : String)
  | resolve (i : Nat) (o : Outcome)

/-- Apply one operation to the store, discarding the reply. -/
def step (st : St) : Op → St
  | Op.track today e => (track_click_handler st today e).1
  | Op.claim u => (claim_usdt_handler st u).1
  | Op.setRate a => (set_usdt_rate_handler st a).1
  | Op.visitAdd u n => employee_visit_add_handler st u n
  | Op.visitMinus u n => employee_visit_minus_handler st u n
  | Op.withdraw u a m c => (requestWithdrawal st u a m c).1
  | Op.resolve i o => (resolveRequest st i o).1

/-- Apply a sequence of operations. -/
def run (st : St) (ops : List Op) : St :=
  ops.foldl step st

/-! ## Concrete stores and events for the witnesses and counterexamples -/

/-- A freshly joined employee row: no profile, zero counters. -/
def empAlice : Employee :=
  { telegramId := some 100
    isEditor := false
    profileSet := false
    banned := false
    bkashNumber := none
    binanceId := none
    totalVisits := 0
    totalClicks := 0
    usdtBalance := 0 }

/-- A store holding only the employee alice; no clicks recorded yet. -/
def stFresh : St :=
  { employees := fun v => if v = "alice" then some empAlice else none
    clicks := []
    withdrawRequests := []
    usdtRate := some 1 }

/-- A tracking event referred by alice from viewer 7, reported as a
qualifying visit. -/
def evAlice : RawEvent :=
  { ref := some "alice"
    viewerUsername := none
    viewerTelegramId := some 7
    viewerFullName := some "Viewer"
    userAgent := "ua"
    pageUrl := "p"
    isVisit := true
    isTelegramBrowser := false }

/-- A pre-existing clicks row whose stored key happens to have the
viewer-page shape for viewer 7, date 2025-01-01 and page p, marked as a
visit: exactly what the first fingerprint probe looks for. -/
def rowProbe : ClickRow :=
  { refByEmployee := none
    viewerTelegramId := some 7
    viewerUsername := none
    viewerFullName := none
    userAgent := "ua"
    pageUrl := "p"
    timestampDate := "2025-01-01"
    isVisit := true
    isClick := true
    isTelegramBrowser := false
    uniqueDailyKey := "7_2025-01-01_p" }

/-- The fresh store with the probe-matching row present, so the
processing branch of the handler actually runs. -/
def stProbe : St :=
  { stFresh with clicks := [rowProbe] }

/-- The store after the first successful submission of evAlice against
stProbe. -/
def stProbe2 : St :=
  (track_click_handler stProbe "2025-01-01" evAlice).1

/-- A recorded click for viewer 7 on 2025-01-01 that is not a visit and
whose key matches no probe. -/
def rowPlain : ClickRow :=
  { rowProbe with isVisit := false, uniqueDailyKey := "k" }

/-- A store in which viewer 7 already has 20 clicks recorded today but
no stored row matches the visit-fingerprint probe. -/
def stLimit : St :=
  { stFresh with clicks := List.replicate 20 rowPlain }

/-- An employee with 2500 raw visits awaiting conversion. -/
def empBob : Employee :=
  { telegramId := some 200
    isEditor := false
    profileSet := true
    banned := false
    bkashNumber := some "01700000000"
    binanceId := none
    totalVisits := 2500
    totalClicks := 2500
    usdtBalance := 0 }

/-- A store holding bob with 2500 visits and the default rate 1.00. -/
def stClaim : St :=
  { employees := fun v => if v = "bob" then some empBob else none
    clicks := []
    withdrawRequests := []
    usdtRate := some 1 }

/-- bob after conversion: a balance of 10.00 ready for withdrawal. -/
def empBobRich : Employee :=
  { empBob with totalVisits := 0, usdtBalance := 10 }

/-- A store holding bob with balance 10.00, a complete profile and a
configured Bkash number. -/
def stRich : St :=
  { stClaim with employees := fun v => if v = "bob" then some empBobRich else none }

/-- bob with the Binance identifier configured as well. -/
def empBobBinance : Employee :=
  { empBobRich with binanceId := some "binance42" }

/-- The rich store with bob's Binance identifier configured. -/
def stRichB : St :=
  { stClaim with employees := fun v => if v = "bob" then some empBobBinance else none }

/-- A store with no employees at all, but with the probe row present so
the processing branch of the click handler runs. -/
def stNoEmp : St :=
  { employees := fun _ => none
    clicks := [rowProbe]
    withdrawRequests := []
    usdtRate := some 1 }

/-- The evAlice event with an unknown referring handle. -/
def evGhost : RawEvent :=
  { evAlice with ref := some "ghost" }

/-- A pending withdrawal request row. -/
def wrowPending : WithdrawRow :=
  { id := 0
    employeeUsername := "bob"
    usdtAmount := 5
    paymentMethod := "Bkash"
    paymentDetail := "01700000000"
    comment := ""
    status := "pending" }

/-- The rich store with one pending withdrawal request on file. -/
def stPending : St :=
  { stRich with withdrawRequests := [wrowPending] }

/-- A short demonstration schedule: admin credit then debit of raw
visits for bob. -/
def opsC7 : List Op :=
  [Op.visitAdd "bob" 5, Op.visitMinus "bob" 9]

/-- The settings row holds a positive rate. -/
def RateConfigured (st : St) : Prop :=
  ∃ r, st.usdtRate = some r ∧ 0 < r

/-- Every employee row carries a non-negative balance and visit count. -/
def LedgerNonneg (st : St) : Prop :=
  ∀ u e, st.employees u = some e → 0 ≤ e.usdtBalance ∧ 0 ≤ e.totalVisits

/-- The joint store invariant. -/
def Inv (st : St) : Prop :=
  RateConfigured st ∧ LedgerNonneg st

/-! ## Preservation lemmas: the rate cell -/

theorem usdtRate_updateEmp (st : St) (u : String) (f : Employee → Employee) :
    (updateEmp st u f).usdtRate = st.usdtRate := rfl

theorem usdtRate_updateEmpOpt (st : St) (u : Option String) (f : Employee → Employee) :
    (updateEmpOpt st u f).usdtRate = st.usdtRate := by
  cases u <;> rfl

theorem usdtRate_recordClick (st : St) (t : String) (e : RawEvent) :
    (recordClick st t e).usdtRate = st.usdtRate := by
  unfold recordClick
  rw [usdtRate_updateEmpOpt]
  split
  · rw [usdtRate_updateEmpOpt]; rfl
  · rfl

theorem usdtRate_track (st : St) (t : String) (e : RawEvent) :
    ((track_click_handler st t e).1).usdtRate = st.usdtRate := by
  unfold track_click_handler
  split
  · split
    · rfl
    · split
      · rfl
      · exact usdtRate_recordClick st t e
  · rfl

theorem usdtRate_claim (st : St) (u : String) :
    ((claim_usdt_handler st u).1).usdtRate = st.usdtRate := by
  unfold claim_usdt_handler applyClaim
  split
  · rfl
  · split
    · rfl
    · split
      · rfl
      · rfl

theorem usdtRate_withdraw (st : St) (u : String) (a : Rat) (m c : String) :
    ((requestWithdrawal st u a m c).1).usdtRate = st.usdtRate := by
  unfold requestWithdrawal finishWithdrawal applyWithdrawal
  repeat first | rfl | split | dsimp only

theorem usdtRate_visitAdd (st : St) (u : String) (n : Int) :
    (employee_visit_add_handler st u n).usdtRate = st.usdtRate := by
  unfold employee_visit_add_handler
  split <;> rfl

theorem usdtRate_visitMinus (st : St) (u : String) (n : Int) :
    (employee_visit_minus_handler st u n).usdtRate = st.usdtRate := by
  unfold employee_visit_minus_handler
  split <;> rfl

theorem usdtRate_resolve (st : St) (i : Nat) (o : Outcome) :
    ((resolveRequest st i o).1).usdtRate = st.usdtRate := by
  unfold resolveRequest
  repeat first | rfl | split

theorem rateConfigured_step (st : St) (op : Op) (h : RateConfigured st) :
    RateConfigured (step st op) := by
  obtain ⟨r, hr, hp⟩ := h
  cases op with
  | track t e => exact ⟨r, by rw [step, usdtRate_track, hr], hp⟩
  | claim u => exact ⟨r, by rw [step, usdtRate_claim, hr], hp⟩
  | setRate a =>
    rw [step]
    unfold set_usdt_rate_handler
    split
    · exact ⟨r, hr, hp⟩
    · next hle => exact ⟨a, rfl, lt_of_not_le hle⟩
  | visitAdd u n => exact ⟨r, by rw [step, usdtRate_visitAdd, hr], hp⟩
  | visitMinus u n => exact ⟨r, by rw [step, usdtRate_visitMinus, hr], hp⟩
  | withdraw u a m c => exact ⟨r, by rw [step, usdtRate_withdraw, hr], hp⟩
  | resolve i o => exact ⟨r, by rw [step, usdtRate_resolve, hr], hp⟩

/-! ## Preservation lemmas: non-negativity of the ledger -/

theorem ledgerNonneg_updateEmp {st : St} {u : String} {f : Employee → Employee}
    (h : LedgerNonneg st)
    (hf : ∀ e, st.employees u = some e → 0 ≤ (f e).usdtBalance ∧ 0 ≤ (f e).totalVisits) :
    LedgerNonneg (updateEmp st u f) := by
  intro v e hv
  unfold updateEmp at hv
  dsimp only at hv
  by_cases hvu : v = u
  · rw [if_pos hvu] at hv
    cases he : st.employees v with
    | none => rw [he] at hv; exact absurd hv (by simp)
    | some e0 =>
      rw [he] at hv
      have : f e0 = e := by simpa using hv
      exact this ▸ hf e0 (hvu ▸ he)
  · rw [if_neg hvu] at hv
    exact h v e hv

theorem ledgerNonneg_updateEmpOpt {st : St} {u : Option String} {f : Employee → Employee}
    (h : LedgerNonneg st)
    (hf : ∀ e, 0 ≤ e.usdtBalance → 0 ≤ e.totalVisits →
      0 ≤ (f e).usdtBalance ∧ 0 ≤ (f e).totalVisits) :
    LedgerNonneg (updateEmpOpt st u f) := by
  cases u with
  | none => exact h
  | some u => exact ledgerNonneg_updateEmp h fun e he => hf e (h u e he).1 (h u e he).2

theorem ledgerNonneg_recordClick {st : St} (t : String) (e : RawEvent)
    (h : LedgerNonneg st) : LedgerNonneg (recordClick st t e) := by
  unfold recordClick
  apply ledgerNonneg_updateEmpOpt
  · split
    · apply ledgerNonneg_updateEmpOpt
      · exact fun v e' he' => h v e' he'
      · intro e0 h1 h2
        exact ⟨h1, by dsimp only; omega⟩
    · exact fun v e' he' => h v e' he'
  · intro e0 h1 h2
    exact ⟨h1, h2⟩

theorem ledgerNonneg_track {st : St} (t : String) (e : RawEvent)
    (h : LedgerNonneg st) : LedgerNonneg (track_click_handler st t e).1 := by
  unfold track_click_handler
  split
  · split
    · exact h
    · split
      · exact h
      · exact ledgerNonneg_recordClick t e h
  · exact h

theorem ledgerNonneg_claim {st : St} (u : String) (hr : RateConfigured st)
    (h : LedgerNonneg st) : LedgerNonneg (claim_usdt_handler st u).1 := by
  unfold claim_usdt_handler
  split
  · exact h
  · rename_i emp hemp
    split
    · exact h
    · split
      · exact h
      · unfold applyClaim
        apply ledgerNonneg_updateEmp h
        intro e0 _
        refine ⟨?_, le_refl 0⟩
        obtain ⟨r, hrate, hrpos⟩ := hr
        have hrr : getRate st = r := by simp [getRate, hrate]
        rw [hrr]
        have hb := (h u emp hemp).1
        have hv : (0 : Rat) ≤ (emp.totalVisits : Rat) := by
          exact_mod_cast (h u emp hemp).2
        have : (0 : Rat) ≤ (emp.totalVisits : Rat) / 1000 * r :=
          mul_nonneg (div_nonneg hv (by norm_num)) (le_of_lt hrpos)
        dsimp only
        linarith

theorem ledgerNonneg_applyWithdrawal {st : St} {u : String} {a : Rat} {m d c : String}
    {emp : Employee} (hemp : st.employees u = some emp) (hbal : a ≤ emp.usdtBalance)
    (h : LedgerNonneg st) : LedgerNonneg (applyWithdrawal st u a m d c) := by
  unfold applyWithdrawal
  apply ledgerNonneg_updateEmp (fun v e' he' => h v e' he')
  intro e0 he0
  have he0' : st.employees u = some e0 := he0
  rw [hemp] at he0'
  have he : e0 = emp := (Option.some.inj he0').symm
  refine ⟨?_, ?_⟩
  · dsimp only
    rw [he]
    linarith [sub_nonneg.mpr hbal]
  · rw [he]
    exact (h u emp hemp).2

theorem ledgerNonneg_finishWithdrawal {st : St} {u : String} {a : Rat} {m d c : String}
    {emp : Employee} (hemp : st.employees u = some emp) (hbal : a ≤ emp.usdtBalance)
    (h : LedgerNonneg st) : LedgerNonneg (finishWithdrawal st u a m d c).1 := by
  unfold finishWithdrawal
  dsimp only
  split
  · split
    · exact h
    · exact ledgerNonneg_applyWithdrawal hemp hbal h
  · split
    · exact h
    · exact ledgerNonneg_applyWithdrawal hemp hbal h

theorem ledgerNonneg_withdraw {st : St} (u : String) (a : Rat) (m c : String)
    (h : LedgerNonneg st) : LedgerNonneg (requestWithdrawal st u a m c).1 := by
  unfold requestWithdrawal
  split
  · exact h
  · rename_i emp hemp
    split
    · exact h
    · split
      · exact h
      · split
        · exact h
        · split
          · exact h
          · split
            · exact h
            · rename_i hnotlt
              have hbal : a ≤ emp.usdtBalance := not_lt.mp hnotlt
              split
              · split
                · exact h
                · split
                  · exact h
                  · exact ledgerNonneg_finishWithdrawal hemp hbal h
              · split
                · split
                  · exact h
                  · split
                    · exact h
                    · exact ledgerNonneg_finishWithdrawal hemp hbal h
                · exact h

theorem ledgerNonneg_visitAdd {st : St} (u : String) (n : Int)
    (h : LedgerNonneg st) : LedgerNonneg (employee_visit_add_handler st u n) := by
  unfold employee_visit_add_handler
  split
  · exact h
  · rename_i hn
    apply ledgerNonneg_updateEmp h
    intro e0 he0
    have := (h u e0 he0).2
    exact ⟨(h u e0 he0).1, by dsimp only; omega⟩

theorem ledgerNonneg_visitMinus {st : St} (u : String) (n : Int)
    (h : LedgerNonneg st) : LedgerNonneg (employee_visit_minus_handler st u n) := by
  unfold employee_visit_minus_handler
  split
  · exact h
  · apply ledgerNonneg_updateEmp h
    intro e0 he0
    exact ⟨(h u e0 he0).1, le_max_left 0 _⟩

theorem ledgerNonneg_resolve {st : St} (i : Nat) (o : Outcome)
    (h : LedgerNonneg st) : LedgerNonneg (resolveRequest st i o).1 := by
  unfold resolveRequest
  split
  · exact h
  · split
    · exact fun v e' he' => h v e' he'
    · exact h

theorem inv_step (st : St) (op : Op) (h : Inv st) : Inv (step st op) := by
  obtain ⟨hr, hl⟩ := h
  refine ⟨rateConfigured_step st op hr, ?_⟩
  cases op with
  | track t e => exact ledgerNonneg_track t e hl
  | claim u => exact ledgerNonneg_claim u hr hl
  | setRate a =>
    rw [step]
    unfold set_usdt_rate_handler
    split
    · exact hl
    · exact fun v e' he' => hl v e' he'
  | visitAdd u n => exact ledgerNonneg_visitAdd u n hl
  | visitMinus u n => exact ledgerNonneg_visitMinus u n hl
  | withdraw u a m c => exact ledgerNonneg_withdraw u a m c hl
  | resolve i o => exact ledgerNonneg_resolve i o hl

theorem inv_run (st : St) (ops : List Op) (h : Inv st) : Inv (run st ops) := by
  induction ops generalizing st with
  | nil => exact h
  | cons op ops ih => exact ih (step st op) (inv_step st op h)

theorem inv_initSt : Inv initSt := by
  refine ⟨⟨1, rfl, by norm_num⟩, ?_⟩
  intro u e he
  exact absurd he (by simp [initSt])

/-! ## Lookup lemmas -/

theorem employees_updateEmp_self (st : St) (u : String) (f : Employee → Employee) :
    (updateEmp st u f).employees u = (st.employees u).map f := by
  unfold updateEmp
  dsimp only
  rw [if_pos rfl]

theorem employees_updateEmp_isSome (st : St) (u : String) (f : Employee → Employee)
    (v : String) :
    ((updateEmp st u f).employees v).isSome = (st.employees v).isSome := by
  unfold updateEmp
  dsimp only
  split
  · cases st.employees v <;> rfl
  · rfl

theorem employees_updateEmpOpt_isSome (st : St) (u : Option String) (f : Employee → Employee)
    (v : String) :
    ((updateEmpOpt st u f).employees v).isSome = (st.employees v).isSome := by
  cases u with
  | none => rfl
  | some u => exact employees_updateEmp_isSome st u f v

theorem employees_updateEmpOpt_of_none {st : St} {u : Option String} {f : Employee → Employee}
    (h : ∀ r, u = some r → st.employees r = none) (v : String) :
    (updateEmpOpt st u f).employees v = st.employees v := by
  cases u with
  | none => rfl
  | some r =>
    simp only [updateEmpOpt]
    unfold updateEmp
    dsimp only
    split
    · next hv => rw [hv, h r rfl]; rfl
    · rfl

theorem employees_recordClick_of_unknown_ref {st : St} {t : String} {e : RawEvent} {r : String}
    (href : e.ref = some r) (hnone : st.employees r = none) (v : String) :
    (recordClick st t e).employees v = st.employees v := by
  have hkey : ∀ r2, e.ref = some r2 → st.employees r2 = none := by
    intro r2 hr2
    rw [href] at hr2
    rw [(Option.some.inj hr2).symm]
    exact hnone
  have hmid : ∀ w,
      (if e.isVisit && !visitKeyExists st (employeePageKey e t) then
        updateEmpOpt (insertClick st (mkClickRow e t)) e.ref
          (fun emp => { emp with totalVisits := emp.totalVisits + 1 })
      else insertClick st (mkClickRow e t)).employees w = st.employees w := by
    intro w
    split
    · exact @employees_updateEmpOpt_of_none (insertClick st (mkClickRow e t)) e.ref _ hkey w
    · rfl
  have hmidnone : ∀ r2, e.ref = some r2 →
      (if e.isVisit && !visitKeyExists st (employeePageKey e t) then
        updateEmpOpt (insertClick st (mkClickRow e t)) e.ref
          (fun emp => { emp with totalVisits := emp.totalVisits + 1 })
      else insertClick st (mkClickRow e t)).employees r2 = none := by
    intro r2 hr2
    rw [hmid r2]
    exact hkey r2 hr2
  unfold recordClick
  rw [employees_updateEmpOpt_of_none hmidnone v]
  exact hmid v

theorem find?_setStatus {l : List WithdrawRow} {i : Nat} {r : WithdrawRow} (s : String)
    (h : l.find? (fun w => w.id == i) = some r) :
    (setStatus l i s).find? (fun w => w.id == i) = some { r with status := s } := by
  induction l with
  | nil => simp at h
  | cons a l ih =>
    by_cases ha : a.id = i
    · rw [List.find?_cons_of_pos _ (by simp [ha])] at h
      have hr : a = r := by simpa using h
      subst hr
      unfold setStatus
      simp only [List.map_cons]
      rw [if_pos (by simp [ha])]
      rw [List.find?_cons_of_pos _ (by simp [ha])]
    · rw [List.find?_cons_of_neg _ (by simp [ha])] at h
      unfold setStatus at ih ⊢
      simp only [List.map_cons]
      rw [if_neg (by simp [ha])]
      rw [List.find?_cons_of_neg _ (by simp [ha])]
      exact ih h

/-! ## The claims -/

/-- C1: the claim says an ingestion call whose per-viewer-per-page daily
fingerprint is not yet stored inserts a click-event row, increments the
referrer's click counter, increments the visit counter for a visit, and
answers success. On the code this is false: the whole body of
track_click_handler sits inside the branch taken when the fingerprint
probe finds a stored visit, so the fresh-fingerprint call performs no
write at all and produces no response. This theorem evaluates the
handler on a fresh store at exactly such a call (alice exists, the
clicks table is empty, the event is a visit): the store is returned
untouched and the outcome is the fall-through. -/
theorem C1_fresh_ingestion_dead_branch :
    track_click_handler stFresh "2025-01-01" evAlice = (stFresh, TrackResult.noResponse) := rfl

/-- C2: the claim says repeated identical submissions each increment the
click counter and each get a fresh row under a distinct fingerprint. On
the code: (1) a first submission of a fresh payload performs no write,
so alice's click counter stays 0; (2) even in a store where the
processing branch does run (a stored visit row matches the viewer-page
probe), the first submission succeeds but the identical second one hits
the UNIQUE constraint on unique_daily_key — no sequence suffix is ever
appended — so it records nothing, increments nothing and answers an
error. -/
theorem C2_repeat_submission_not_recorded :
    ((track_click_handler stFresh "2025-01-01" evAlice).1.employees "alice").map
        Employee.totalClicks = some 0
    ∧ (track_click_handler stProbe "2025-01-01" evAlice).2 = TrackResult.success
    ∧ track_click_handler stProbe2 "2025-01-01" evAlice = (stProbe2, TrackResult.integrityError) :=
  ⟨rfl, rfl, rfl⟩

/-- C3: the claim says that with 20 click events already recorded today
for a viewer, ingestion answers RateLimited and performs no writes. The
quota check exists in the code, but it is only reached when the
viewer-page fingerprint probe finds a stored visit row; in this store
viewer 7 has 20 recorded clicks today, none of which matches the probe,
and the handler answers nothing at all instead of the rate-limit
status (no write happens either, but only because the whole body is
skipped). -/
theorem C3_daily_quota_not_enforced :
    20 ≤ clicksTodayForViewer stLimit "2025-01-01" evAlice
    ∧ track_click_handler stLimit "2025-01-01" evAlice = (stLimit, TrackResult.noResponse) :=
  ⟨by decide, rfl⟩

/-- C4: conversion order and arithmetic of claim_usdt_handler. With the
employee present: zero raw visits fail with the no-visits error; a zero
(or defaulted-absent) rate fails with the rate-not-configured error; and
otherwise the balance grows by visits divided by 1000 times the rate,
the visit counter resets to zero, and an immediate second claim fails
with the no-visits error. -/
theorem C4_claim_conversion (st : St) (u : String) (emp : Employee)
    (hemp : st.employees u = some emp) :
    (emp.totalVisits = 0 → claim_usdt_handler st u = (st, ClaimResult.noVisits))
    ∧ (emp.totalVisits ≠ 0 → getRate st = 0 →
        claim_usdt_handler st u = (st, ClaimResult.rateNotSet))
    ∧ (emp.totalVisits ≠ 0 → getRate st ≠ 0 →
        claim_usdt_handler st u =
          (applyClaim st u emp (getRate st),
            ClaimResult.ok ((emp.totalVisits : Rat) / 1000 * getRate st)
              (emp.usdtBalance + (emp.totalVisits : Rat) / 1000 * getRate st))
        ∧ ((applyClaim st u emp (getRate st)).employees u).map Employee.totalVisits = some 0
        ∧ claim_usdt_handler (applyClaim st u emp (getRate st)) u
            = (applyClaim st u emp (getRate st), ClaimResult.noVisits)) := by
  refine ⟨?_, ?_, ?_⟩
  · intro h0
    simp [claim_usdt_handler, hemp, h0]
  · intro h0 hrate
    simp [claim_usdt_handler, hemp, h0, hrate]
  · intro h0 hrate
    refine ⟨by simp [claim_usdt_handler, hemp, h0, hrate], ?_, ?_⟩
    · simp [applyClaim, employees_updateEmp_self, hemp]
    · have hlook : (applyClaim st u emp (getRate st)).employees u
          = some { emp with usdtBalance := emp.usdtBalance + (emp.totalVisits : Rat) / 1000 * getRate st
                            totalVisits := 0 } := by
        simp [applyClaim, employees_updateEmp_self, hemp]
      simp [claim_usdt_handler, hlook]

/-- Witness for C4 at the concrete scenario of the claim: bob holds 2500
raw visits at rate 1.00, the claim converts exactly 2.50, the visit
counter resets, and the immediate second claim fails with the no-visits
error. -/
theorem C4_claim_conversion_witness :
    (claim_usdt_handler stClaim "bob").2 = ClaimResult.ok (5 / 2) (5 / 2)
    ∧ ((claim_usdt_handler stClaim "bob").1.employees "bob").map Employee.totalVisits = some 0
    ∧ (claim_usdt_handler (claim_usdt_handler stClaim "bob").1 "bob").2 = ClaimResult.noVisits := by
  have h := (C4_claim_conversion stClaim "bob" empBob rfl).2.2 (by decide)
    (by norm_num [getRate, stClaim])
  refine ⟨?_, ?_, ?_⟩
  · rw [h.1]
    norm_num [getRate, stClaim, empBob]
  · rw [h.1]
    exact h.2.1
  · rw [h.1, h.2.2]

/-- C9: idempotence of the resolution write, against the spec-modelled
resolveRequest (the operation is specified for this core but src/bot.py
contains no handler that performs it). Resolving a pending request
succeeds; resolving the same id again fails with the already-resolved
error and leaves the store — in particular the request's status —
unchanged. -/
theorem C9_resolve_idempotent (st : St) (i : Nat) (r : WithdrawRow) (o o2 : Outcome)
    (hfind : st.withdrawRequests.find? (fun w => w.id == i) = some r)
    (hpend : r.status = "pending") :
    (resolveRequest st i o).2 = ResolveResult.ok
    ∧ (resolveRequest (resolveRequest st i o).1 i o2).2 = ResolveResult.alreadyResolved
    ∧ (resolveRequest (resolveRequest st i o).1 i o2).1 = (resolveRequest st i o).1 := by
  have h1 : resolveRequest st i o =
      ({ st with withdrawRequests := setStatus st.withdrawRequests i o.toStatus },
        ResolveResult.ok) := by
    unfold resolveRequest
    simp only [hfind]
    rw [if_pos hpend]
  have h2 : ({ st with withdrawRequests := setStatus st.withdrawRequests i o.toStatus } :
      St).withdrawRequests.find? (fun w => w.id == i) = some { r with status := o.toStatus } :=
    find?_setStatus o.toStatus hfind
  have hnp : ¬ ({ r with status := o.toStatus } : WithdrawRow).status = "pending" := by
    cases o <;> simp [Outcome.toStatus]
  have h3 : resolveRequest
      ({ st with withdrawRequests := setStatus st.withdrawRequests i o.toStatus }) i o2 =
      ({ st with withdrawRequests := setStatus st.withdrawRequests i o.toStatus },
        ResolveResult.alreadyResolved) := by
    unfold resolveRequest
    simp only [h2]
    rw [if_neg hnp]
  rw [h1]
  exact ⟨rfl, by rw [h3], by rw [h3]⟩

/-- Witness for C9: one pending request with id 0; approving succeeds,
the second resolution attempt fails with the already-resolved error and
changes nothing. -/
theorem C9_resolve_idempotent_witness :
    (resolveRequest stPending 0 Outcome.approved).2 = ResolveResult.ok
    ∧ (resolveRequest (resolveRequest stPending 0 Outcome.approved).1 0
        Outcome.rejected).2 = ResolveResult.alreadyResolved
    ∧ (resolveRequest (resolveRequest stPending 0 Outcome.approved).1 0
        Outcome.rejected).1 = (resolveRequest stPending 0 Outcome.approved).1 :=
  C9_resolve_idempotent stPending 0 wrowPending Outcome.approved Outcome.rejected rfl rfl

/-- C10: the settings row is created as 1.00 at startup, set_usdt rejects
every non-positive value, therefore every store reachable from startup
by the modelled operations carries a positive stored rate, and the
rate-not-configured branch of the claim operation can never answer. -/
theorem C10_rate_positive_invariant :
    initSt.usdtRate = some 1
    ∧ (∀ (st : St) (a : Rat), a ≤ 0 → set_usdt_rate_handler st a = (st, false))
    ∧ (∀ ops : List Op, ∃ r, (run initSt ops).usdtRate = some r ∧ 0 < r)
    ∧ (∀ (ops : List Op) (u : String),
        (claim_usdt_handler (run initSt ops) u).2 ≠ ClaimResult.rateNotSet) := by
  refine ⟨rfl, ?_, ?_, ?_⟩
  · intro st a ha
    unfold set_usdt_rate_handler
    rw [if_pos ha]
  · intro ops
    exact (inv_run initSt ops inv_initSt).1
  · intro ops u
    obtain ⟨r, hrate, hrpos⟩ := (inv_run initSt ops inv_initSt).1
    unfold claim_usdt_handler
    split
    · simp
    · split
      · simp
      · split
        · next hzero =>
          exact absurd (by simpa [getRate, hrate] using hzero) (ne_of_gt hrpos)
        · simp

/-- Witness for C10: a non-positive rate write is refused, a sequence of
operations from startup leaves a positive stored rate, and the claim
after it does not answer the rate-not-configured error. -/
theorem C10_rate_positive_invariant_witness :
    set_usdt_rate_handler initSt 0 = (initSt, false)
    ∧ (run initSt [Op.setRate 2]).usdtRate = some 2
    ∧ (claim_usdt_handler (run initSt [Op.setRate 2]) "bob").2 ≠ ClaimResult.rateNotSet := by
  have h := C10_rate_positive_invariant
  exact ⟨h.2.1 initSt 0 le_rfl, rfl, h.2.2.2 [Op.setRate 2] "bob"⟩

theorem inv_stClaim : Inv stClaim := by
  refine ⟨⟨1, rfl, by norm_num⟩, ?_⟩
  intro u e he
  by_cases hu : u = "bob"
  · subst hu
    have he2 : e = empBob := by
      have : stClaim.employees "bob" = some empBob := rfl
      rw [this] at he
      exact (Option.some.inj he).symm
    rw [he2]
    exact ⟨le_refl 0, by decide⟩
  · have : stClaim.employees u = none := by
      simp [stClaim, hu]
    rw [this] at he
    exact absurd he (by simp)

/-- C5: for every successful RequestWithdrawal — any employee, any
positive amount within the balance, either payment method, any accepted
comment — the operation answers the new request id, debits exactly the
requested amount from the balance, prepends exactly one pending request
row whose payment detail is the profile value of the chosen method
copied at submission time, and a later profile edit leaves the stored
requests untouched. -/
theorem C5_withdrawal_debit (st : St) (u : String) (emp : Employee) (amount : Rat)
    (method comment d : String)
    (hemp : st.employees u = some emp) (hprof : emp.profileSet = true)
    (hbalmin : 1 ≤ emp.usdtBalance) (hpos : 0 < amount) (hle : amount ≤ emp.usdtBalance)
    (hmethod : (method = "Bkash" ∧ emp.bkashNumber = some d)
      ∨ (method = "Binance" ∧ emp.binanceId = some d))
    (hd : d ≠ "")
    (hc : (if comment = "না" then "" else comment).length ≤ 60) :
    (requestWithdrawal st u amount method comment).2
        = WithdrawResult.ok st.withdrawRequests.length
    ∧ ((requestWithdrawal st u amount method comment).1.employees u).map Employee.usdtBalance
        = some (emp.usdtBalance - amount)
    ∧ (requestWithdrawal st u amount method comment).1.withdrawRequests
        = newWithdrawRow st u amount method d (if comment = "না" then "" else comment)
            :: st.withdrawRequests
    ∧ (newWithdrawRow st u amount method d (if comment = "না" then "" else comment)).status
        = "pending"
    ∧ (newWithdrawRow st u amount method d (if comment = "না" then "" else comment)).usdtAmount
        = amount
    ∧ (newWithdrawRow st u amount method d (if comment = "না" then "" else comment)).paymentDetail
        = d
    ∧ ∀ b bi,
        (set_profile_payment (requestWithdrawal st u amount method comment).1
            u b bi).withdrawRequests
          = (requestWithdrawal st u amount method comment).1.withdrawRequests := by
  have hfin : finishWithdrawal st u amount method d comment
      = (applyWithdrawal st u amount method d (if comment = "না" then "" else comment),
        WithdrawResult.ok st.withdrawRequests.length) := by
    unfold finishWithdrawal
    dsimp only
    rw [if_neg (not_lt.mpr hc)]
  have hmem : (1 : Rat) ∈ ([(1 : Rat), 5, 10, 30, 100].filter fun a => a ≤ emp.usdtBalance) :=
    List.mem_filter.mpr ⟨by simp, by simpa using hbalmin⟩
  have hne : ¬ (([(1 : Rat), 5, 10, 30, 100].filter fun a => a ≤ emp.usdtBalance) = []) :=
    List.ne_nil_of_mem hmem
  have hrw : requestWithdrawal st u amount method comment
      = (applyWithdrawal st u amount method d (if comment = "না" then "" else comment),
        WithdrawResult.ok st.withdrawRequests.length) := by
    unfold requestWithdrawal
    simp only [hemp]
    rw [if_neg (by simp [hprof]), if_neg (not_lt.mpr hbalmin), if_neg hne,
      if_neg (not_le.mpr hpos), if_neg (not_lt.mpr hle)]
    rcases hmethod with ⟨hm, hbk⟩ | ⟨hm, hbin⟩
    · rw [if_pos hm]
      simp only [hbk]
      rw [if_neg hd]
      exact hfin
    · rw [if_neg (by rw [hm]; decide), if_pos hm]
      simp only [hbin]
      rw [if_neg hd]
      exact hfin
  refine ⟨by rw [hrw], ?_, by rw [hrw]; rfl, rfl, rfl, rfl, fun b bi => rfl⟩
  rw [hrw]
  have hlook : (applyWithdrawal st u amount method d
        (if comment = "না" then "" else comment)).employees u
      = some { emp with usdtBalance := emp.usdtBalance - amount } := by
    unfold applyWithdrawal
    rw [employees_updateEmp_self]
    show (st.employees u).map _ = some { emp with usdtBalance := emp.usdtBalance - amount }
    rw [hemp]
    rfl
  dsimp only
  rw [hlook]
  rfl

/-- Witness for C5, exercising both payment methods: bob (balance 10.00,
complete profile) withdraws 5.00 by Bkash — request 0 is filed pending
with the Bkash number, the balance lands at exactly 5.00, and a profile
edit afterwards changes no filed request — and, on the Binance-configured
store, withdraws 3.50 by Binance with a comment, landing at 6.50 with
the Binance identifier captured. -/
theorem C5_withdrawal_debit_witness :
    (requestWithdrawal stRich "bob" 5 "Bkash" "").2 = WithdrawResult.ok 0
    ∧ ((requestWithdrawal stRich "bob" 5 "Bkash" "").1.employees "bob").map
        Employee.usdtBalance = some 5
    ∧ (requestWithdrawal stRich "bob" 5 "Bkash" "").1.withdrawRequests
        = [newWithdrawRow stRich "bob" 5 "Bkash" "01700000000" ""]
    ∧ (newWithdrawRow stRich "bob" 5 "Bkash" "01700000000" "").status = "pending"
    ∧ (set_profile_payment (requestWithdrawal stRich "bob" 5 "Bkash" "").1 "bob"
        (some "x") none).withdrawRequests
        = (requestWithdrawal stRich "bob" 5 "Bkash" "").1.withdrawRequests
    ∧ (requestWithdrawal stRichB "bob" (7 / 2) "Binance" "hello").2 = WithdrawResult.ok 0
    ∧ ((requestWithdrawal stRichB "bob" (7 / 2) "Binance" "hello").1.employees "bob").map
        Employee.usdtBalance = some (13 / 2)
    ∧ (newWithdrawRow stRichB "bob" (7 / 2) "Binance" "binance42" "hello").paymentDetail
        = "binance42" := by
  have h1 := C5_withdrawal_debit stRich "bob" empBobRich 5 "Bkash" "" "01700000000" rfl rfl
    (by norm_num [empBobRich]) (by norm_num) (by norm_num [empBobRich])
    (Or.inl ⟨rfl, rfl⟩) (by decide) (by decide)
  have h2 := C5_withdrawal_debit stRichB "bob" empBobBinance (7 / 2) "Binance" "hello"
    "binance42" rfl rfl (by norm_num [empBobBinance, empBobRich]) (by norm_num)
    (by norm_num [empBobBinance, empBobRich]) (Or.inr ⟨rfl, rfl⟩) (by decide) (by decide)
  refine ⟨h1.1, ?_, h1.2.2.1, h1.2.2.2.1, h1.2.2.2.2.2.2 (some "x") none, h2.1, ?_,
    h2.2.2.2.2.2.1⟩
  · have hb := h1.2.1
    rw [show (empBobRich.usdtBalance - 5 : Rat) = 5 from by norm_num [empBobRich]] at hb
    exact hb
  · have hb := h2.2.1
    rw [show (empBobBinance.usdtBalance - 7 / 2 : Rat) = 13 / 2 from by
      norm_num [empBobBinance, empBobRich]] at hb
    exact hb

/-- C6 counterexample: the claim says any requested amount below the
configured minimum of 1.00 is rejected; on the code the amount itself is
only required to be positive and within the balance (the 1.00 minimum is
applied to the balance at dialogue start), so a typed request of 0.50
against a balance of 10.00 goes through and files request 0. -/
theorem C6_counterexample :
    ((1 : Rat) / 2 < 1)
    ∧ (requestWithdrawal stRich "bob" (1 / 2) "Bkash" "").2 = WithdrawResult.ok 0 := by
  constructor
  · norm_num
  · simp +decide [requestWithdrawal, stRich, stClaim, empBobRich, empBob, finishWithdrawal]
    norm_num

/-- C6 as amended: the withdrawal dialogue rejects a request whose
amount is not positive or exceeds the current balance, and every
rejection leaves the store unchanged (the 1.00 minimum constrains the
balance at dialogue start, not the amount). -/
theorem C6_amended_rejection (st : St) (u : String) (emp : Employee) (amount : Rat)
    (method comment : String) (hemp : st.employees u = some emp)
    (h : amount ≤ 0 ∨ emp.usdtBalance < amount) :
    (requestWithdrawal st u amount method comment).1 = st
    ∧ ∀ i, (requestWithdrawal st u amount method comment).2 ≠ WithdrawResult.ok i := by
  unfold requestWithdrawal
  simp only [hemp]
  split
  · exact ⟨rfl, fun i hh => by simp at hh⟩
  · split
    · exact ⟨rfl, fun i hh => by simp at hh⟩
    · split
      · exact ⟨rfl, fun i hh => by simp at hh⟩
      · split
        · exact ⟨rfl, fun i hh => by simp at hh⟩
        · split
          · exact ⟨rfl, fun i hh => by simp at hh⟩
          · next hpos hover =>
            rcases h with h | h
            · exact absurd h hpos
            · exact absurd h hover

/-- Witness for C6 as amended: a request of 20.00 against bob's balance
of 10.00 is rejected without any state change. -/
theorem C6_amended_rejection_witness :
    (requestWithdrawal stRich "bob" 20 "Bkash" "").1 = stRich
    ∧ (requestWithdrawal stRich "bob" 20 "Bkash" "").2 ≠ WithdrawResult.ok 0 := by
  have h := C6_amended_rejection stRich "bob" empBobRich 20 "Bkash" "" rfl
    (Or.inr (by norm_num [empBobRich]))
  exact ⟨h.1, h.2 0⟩

/-- C7: from any store satisfying the invariant (positive stored rate,
non-negative counters and balances — the startup store qualifies), every
sequence of the core's operations preserves non-negativity of every
employee's balance and raw visit count; and the admin visit subtraction
floors the counter at zero instead of going negative. -/
theorem C7_ledger_nonneg (st0 : St) (ops : List Op) (h : Inv st0) :
    (∀ u e, (run st0 ops).employees u = some e → 0 ≤ e.usdtBalance ∧ 0 ≤ e.totalVisits)
    ∧ (∀ (st : St) (u : String) (n : Int) (emp : Employee), 0 < n →
        st.employees u = some emp →
        (employee_visit_minus_handler st u n).employees u
          = some { emp with totalVisits := max 0 (emp.totalVisits - n) }) := by
  constructor
  · exact (inv_run st0 ops h).2
  · intro st u n emp hn hemp
    unfold employee_visit_minus_handler
    rw [if_neg (by omega)]
    rw [employees_updateEmp_self, hemp]
    rfl

/-- Witness for C7: running the demonstration schedule on bob's store
keeps his balance and visit count non-negative (5 credited then 9
debited from 2500 leaves 2496), and subtracting 3000 visits from 2500
floors at zero. -/
theorem C7_ledger_nonneg_witness :
    ((0 : Rat) ≤ ({ empBob with totalVisits := 2496 } : Employee).usdtBalance
      ∧ (0 : Int) ≤ ({ empBob with totalVisits := 2496 } : Employee).totalVisits)
    ∧ (employee_visit_minus_handler stClaim "bob" 3000).employees "bob"
        = some { empBob with totalVisits := 0 } := by
  have h := C7_ledger_nonneg stClaim opsC7 inv_stClaim
  constructor
  · exact h.1 "bob" { empBob with totalVisits := 2496 } rfl
  · have h2 := h.2 stClaim "bob" 3000 empBob (by norm_num) rfl
    rw [h2]
    rfl

/-- C8 counterexample: the claim says a referring handle that names no
existing employee makes ingestion answer Rejected with the
unknown-referrer reason; on the code the referrer is never validated —
at a store with no employees at all, an event referred by the unknown
handle ghost is processed and answered with plain success (the handler
has no rejected outcome at all). -/
theorem C8_counterexample :
    stNoEmp.employees "ghost" = none
    ∧ evGhost.ref = some "ghost"
    ∧ (track_click_handler stNoEmp "2025-01-01" evGhost).2 = TrackResult.success :=
  ⟨rfl, rfl, rfl⟩

/-- C8 as amended: ingestion never creates an employee ledger row (the
employee table's domain is invariant under any tracking call), and with
a referring handle that names no employee the employee table is left
pointwise unchanged — but no Rejected response is produced; the unknown
referrer is simply not checked. -/
theorem C8_amended_no_ledger_row (st : St) (today : String) (e : RawEvent) :
    (∀ u, ((track_click_handler st today e).1.employees u).isSome = (st.employees u).isSome)
    ∧ (∀ r, e.ref = some r → st.employees r = none →
        ∀ u, (track_click_handler st today e).1.employees u = st.employees u) := by
  constructor
  · intro u
    unfold track_click_handler
    split
    · split
      · rfl
      · split
        · rfl
        · unfold recordClick
          rw [employees_updateEmpOpt_isSome]
          split
          · rw [employees_updateEmpOpt_isSome]; rfl
          · rfl
    · rfl
  · intro r href hnone u
    unfold track_click_handler
    split
    · split
      · rfl
      · split
        · rfl
        · exact employees_recordClick_of_unknown_ref href hnone u
    · rfl

/-- Witness for C8 as amended: at the concrete unknown-referrer call,
the employee table's domain is unchanged at bob and the ghost entry
stays absent. -/
theorem C8_amended_no_ledger_row_witness :
    ((track_click_handler stNoEmp "2025-01-01" evGhost).1.employees "bob").isSome
      = (stNoEmp.employees "bob").isSome
    ∧ (track_click_handler stNoEmp "2025-01-01" evGhost).1.employees "ghost"
      = stNoEmp.employees "ghost" := by
  have h := C8_amended_no_ledger_row stNoEmp "2025-01-01" evGhost
  exact ⟨h.1 "bob", h.2 "ghost" rfl rfl "ghost"⟩

end AlumintBot
